import Mathlib

/-!
Verification development for `chrome_chat_agent.py` (ChatHelper).

The definitions below are a shallow embedding of the parts of the source
relevant to the frozen claims:

* the echo guard in `auto_responder_loop` (together with the module constant
  `_ECHO_COOLDOWN_SEC` and the map `_last_sent_per_chat`),
* the conversation key `_chat_storage_key`,
* the composer scorer (`isVisible` / `scoreEl` / best-candidate loop in the
  JavaScript embedded in `_find_dom_input`),
* the text injection pipeline in `cmd_tippe` (`_has_typed_text`,
  `_normalize`, the three typing strategies and the last-sent bookkeeping),
* one iteration of `auto_responder_loop` (guards, dedup, echo skip, reply
  dispatch and the last-seen update),
* the exception handling of the polling loop, and
* the marker-attribute handling and the shadow-root candidate walk of
  `_find_dom_input`.

Timestamps (Python `time.time()` floats) and pixel geometry (JS floats from
`getBoundingClientRect`) are modelled as rationals; Python/JS strings as Lean
strings.  Playwright handles, the page surface and the LLM are abstracted as
environment inputs: a cycle's extraction results, identity lookup and the
effect of each typing strategy on the element's text are parameters.
-/

namespace ChatHelper

/-! ### String helpers

`pyStrip` models Python `str.strip()` / JS `String.trim()` (both strip
whitespace from the ends).  `strStarts`, `strHasSub` and `strEnds` model
JS `String.includes` / Python `in` and `str.endswith` on the underlying
character lists.  `pyNormalize` models `_normalize` in `cmd_tippe`:
`" ".join(txt.replace(nbsp, " ").split())`. -/

def stripLeading : List Char → List Char
  | [] => []
  | c :: cs => if c.isWhitespace then stripLeading cs else c :: cs

/-- Python `str.strip()` / JS `trim()`: drop whitespace from both ends.
(Defined on the character list so that it evaluates by kernel reduction.) -/
def pyStrip (s : String) : String :=
  ⟨(stripLeading (stripLeading s.data.reverse).reverse)⟩

/-- ASCII lowercasing, standing in for Python `str.lower()` / JS
`toLowerCase()` (the keyword lists are ASCII or already lowercase). -/
def toLowerStr (s : String) : String := ⟨s.data.map Char.toLower⟩

def strStarts : List Char → List Char → Bool
  | [], _ => true
  | _ :: _, [] => false
  | a :: ps, b :: ss => a == b && strStarts ps ss

def strHasSubAux (p : List Char) : List Char → Bool
  | [] => strStarts p []
  | b :: ss => strStarts p (b :: ss) || strHasSubAux p ss

/-- `strHasSub s sub` : does `s` contain `sub` (JS `s.includes(sub)`,
Python `sub in s`)? -/
def strHasSub (s sub : String) : Bool := strHasSubAux sub.data s.data

/-- `strEnds s t` : does `s` end with `t` (Python `s.endswith(t)`)? -/
def strEnds (s t : String) : Bool := strStarts t.data.reverse s.data.reverse

/-- `.replace("\xa0", " ")` — the pattern is a single character, so the
replacement is a per-character map. -/
def replaceNbsp (s : List Char) : List Char :=
  s.map (fun c => if c = '\xA0' then ' ' else c)

/-- Split on whitespace; `cur` is the current word, reversed. -/
def splitWsAux : List Char → List Char → List (List Char)
  | cur, [] => [cur.reverse]
  | cur, c :: cs =>
    if c.isWhitespace then cur.reverse :: splitWsAux [] cs
    else splitWsAux (c :: cur) cs

/-- `" ".join(words)`. -/
def joinWords : List String → String
  | [] => ""
  | [w] => w
  | w :: ws => w ++ " " ++ joinWords ws

/-- `_normalize` in `cmd_tippe`:
`" ".join((txt or "").replace("\xa0", " ").split())` — Python `split()`
discards empty pieces. -/
def pyNormalize (txt : String) : String :=
  joinWords
    (((splitWsAux [] (replaceNbsp txt.data)).map (fun l => String.mk l)).filter
      (fun p => p ≠ ""))

/-! ### Configuration constants (module level in the source) -/

/-- `_ECHO_COOLDOWN_SEC = 10.0`. -/
def echoCooldownSec : ℚ := 10

/-- `AUTO_POLL_SECONDS = 3`. -/
def AUTO_POLL_SECONDS : ℚ := 3

/-- `AUTO_DOMAINS = {"web.whatsapp.com": True, "bumble.com": True}`. -/
def AUTO_DOMAINS : List (String × Bool) :=
  [("web.whatsapp.com", true), ("bumble.com", true)]

/-- `AUTO_DOMAINS.get(host, False)`. -/
def autoDomainEnabled (host : String) : Bool :=
  (List.lookup host AUTO_DOMAINS).getD false

/-- `CHAT_DOMAINS = set(AUTO_DOMAINS.keys())`. -/
def CHAT_DOMAINS : List String := ["web.whatsapp.com", "bumble.com"]

/-! ### Conversation key (`_chat_storage_key`) -/

/-- `_chat_storage_key(host, identity)`: lowercased stripped host, `None` if
empty, `host::identity` when a stripped identity is present. -/
def chatStorageKey (host : String) (identity : Option String) : Option String :=
  let h := toLowerStr (pyStrip host)
  let i := pyStrip (identity.getD "")
  if h = "" then none
  else if i ≠ "" then some (h ++ "::" ++ i)
  else some h

/-! ### Echo guard

The per-chat last-sent map `_last_sent_per_chat : dict[str, tuple[str, float]]`
is modelled as an association list; `dict.get(key, ("", 0.0))` is
`lookupLastSent`.  `isEcho` is the guard condition at the start of the reply
branch in `auto_responder_loop`:

    last_sent_text, last_sent_time = _last_sent_per_chat.get(chat_key, ("", 0.0))
    if (last_sent_text
        and latest.strip() == last_sent_text.strip()
        and (now - last_sent_time) < _ECHO_COOLDOWN_SEC): skip
-/

/-- `_last_sent_per_chat.get(chat_key, ("", 0.0))`. -/
def lookupLastSent (m : List (String × (String × ℚ))) (k : String) : String × ℚ :=
  match List.lookup k m with
  | some v => v
  | none => ("", 0)

/-- The echo-guard condition of `auto_responder_loop`. -/
def isEcho (m : List (String × (String × ℚ))) (key latest : String) (now : ℚ) : Bool :=
  let p := lookupLastSent m key
  (p.1 != "") && (pyStrip latest == pyStrip p.1) && decide (now - p.2 < echoCooldownSec)

/-! ### Composer scorer

Embedding of the JavaScript in `_find_dom_input` (`isVisible`, `scoreEl`,
the keyword lists and the best-candidate loop).  A candidate element is
abstracted to exactly the data the script reads from it: its bounding box
(`width`, `height`, `bottom`), computed style (`visibility`, `display`),
editability flag and tag, the attribute strings the script concatenates,
and the results of the `closest`/`querySelector` containment probes.
Geometry and scores are rationals (JS numbers). -/

structure ElemInfo where
  /-- `getBoundingClientRect().width`. -/
  width : ℚ
  /-- `getBoundingClientRect().height`. -/
  height : ℚ
  /-- `getBoundingClientRect().bottom`. -/
  bottom : ℚ
  /-- `getComputedStyle(el).visibility`. -/
  visibility : String
  /-- `getComputedStyle(el).display`. -/
  display : String
  /-- `el.isContentEditable`. -/
  contentEditableFlag : Bool
  /-- `el.tagName`. -/
  tagName : String
  /-- `getAttribute('placeholder')`, null coalesced to the empty string. -/
  placeholder : String
  /-- `getAttribute('data-placeholder')` likewise. -/
  dataPlaceholder : String
  /-- `getAttribute('aria-label')` likewise. -/
  ariaLabel : String
  /-- `getAttribute('role')` likewise. -/
  roleAttr : String
  /-- `getAttribute('id')` likewise. -/
  idAttr : String
  /-- `getAttribute('name')` likewise. -/
  nameAttr : String
  /-- `getAttribute('type')` likewise. -/
  typeAttr : String
  /-- `getAttribute('data-tab')` likewise. -/
  dataTab : String
  /-- whether `el.closest('header, [role=search], [data-testid*=search i],
  [aria-label*=such i], [aria-label*=search i]')` found a container. -/
  inHeaderOrSearch : Bool
  /-- whether `el.closest('[data-testid=chat-list-search]')` found one. -/
  inChatListSearch : Bool
  /-- whether `el.closest('aside')` found one. -/
  inAside : Bool
  /-- whether `el.closest('footer, [data-testid*=composer i],
  [data-testid*=footer i]')` found one. -/
  inFooterComposer : Bool
  /-- `el.closest('form, footer, section, div')`: `none` when there is no such
  container, otherwise whether it contains a send button
  (`button[aria-label*=send i], button[type=submit], [data-testid*=send i]`). -/
  containerWithSend : Option Bool
  /-- `getAttribute('aria-labelledby')`, null coalesced to the empty string. -/
  ariaLabelledBy : String
  /-- the `innerText`/`textContent` of the elements the `aria-labelledby` ids
  resolve to (nulls filtered out), in attribute order. -/
  labelledTexts : List String
deriving DecidableEq

/-- The message/reply keyword list of the script. -/
def composerKeywords : List String :=
  ["message", "nachricht", "reply", "antwort", "write a message", "type a message",
   "gib eine nachricht ein", "messaggio", "mensaje", "mensagem", "メッセージ", "сообщение"]

/-- The search keyword list of the script. -/
def searchWords : List String :=
  ["search", "suche", "suchen", "buscar", "recherche", "поиск", "pesquisa"]

/-- `isVisible` in the script: `r.width > 20 && r.height > 16 &&
st.visibility !== 'hidden' && st.display !== 'none'`. -/
def isVisible (el : ElemInfo) : Bool :=
  decide (20 < el.width) && decide (16 < el.height) &&
    (el.visibility != "hidden") && (el.display != "none")

/-- The concatenated, lowercased attribute text scanned for keywords. -/
def attrsText (el : ElemInfo) : String :=
  (el.placeholder ++ " " ++ el.dataPlaceholder ++ " " ++ el.ariaLabel ++ " " ++
    el.roleAttr ++ " " ++ el.idAttr ++ " " ++ el.nameAttr) |> toLowerStr

/-- The `aria-labelledby` loop: the first label whose lowercased text contains
a composer keyword contributes `+40`, otherwise the first containing a search
word contributes `-120`; both stop the loop. -/
def labelAdjust : List String → ℚ
  | [] => 0
  | lbl :: rest =>
    let txt := toLowerStr lbl
    if composerKeywords.any (fun k => strHasSub txt k) then 40
    else if searchWords.any (fun k => strHasSub txt k) then -120
    else labelAdjust rest

/-- `scoreEl` in the script; `vh` is `window.innerHeight` (or its fallbacks). -/
def scoreEl (vh : ℚ) (el : ElemInfo) : ℚ :=
  if !isVisible el then -1
  else
    let distBottom := |vh - el.bottom|
    let s : ℚ := max 0 (120 - min 120 distBottom)
    let s := s + (if el.contentEditableFlag then 50 else 0)
    let s := s + (if el.tagName = "TEXTAREA" then 40 else 0)
    let s := s + (if el.tagName = "DIV" then 10 else 0)
    let attrs := attrsText el
    let s := s + (if composerKeywords.any (fun k => strHasSub attrs k) then 70 else 0)
    let s := s - (if searchWords.any (fun k => strHasSub attrs k) then 140 else 0)
    let ty := toLowerStr el.typeAttr
    let s := s - (if ty = "search" then 140 else 0)
    let s := s - (if ty = "email" ∨ ty = "password" then 60 else 0)
    let dt := toLowerStr el.dataTab
    let s := s - (if dt = "3" then 220 else 0)
    let s := s + (if dt ∈ ["6", "7", "9", "10", "11"] then 60 else 0)
    let s := s - (if el.inHeaderOrSearch then 160 else 0)
    let s := s - (if el.inChatListSearch then 220 else 0)
    let s := s - (if el.inAside then 30 else 0)
    let s := s + (if el.inFooterComposer then 35 else 0)
    let s := s + (match el.containerWithSend with | some true => 30 | _ => 0)
    let s := s + (if el.ariaLabelledBy ≠ "" then labelAdjust el.labelledTexts else 0)
    s

/-- One step of the best-candidate loop:
`const sc = scoreEl(el); if (sc > bestScore) .. best = el; bestScore = sc ..`. -/
def chooseStep (vh : ℚ) (acc : Option ElemInfo × ℚ) (el : ElemInfo) :
    Option ElemInfo × ℚ :=
  let sc := scoreEl vh el
  if acc.2 < sc then (some el, sc) else acc

/-- The best-candidate loop of the script, starting from
`best = null, bestScore = -1`. -/
def chooseBest (vh : ℚ) (cands : List ElemInfo) : Option ElemInfo × ℚ :=
  cands.foldl (chooseStep vh) (none, -1)

/-- A concrete invisible element (`display:none`, zero box) that every other
heuristic favors: contenteditable `TEXTAREA` at the viewport bottom, message
placeholder, send button in its container. -/
def exHiddenComposer : ElemInfo :=
  { width := 0, height := 0, bottom := 500, visibility := "visible",
    display := "none", contentEditableFlag := true, tagName := "TEXTAREA",
    placeholder := "message", dataPlaceholder := "", ariaLabel := "",
    roleAttr := "textbox", idAttr := "", nameAttr := "", typeAttr := "",
    dataTab := "10", inHeaderOrSearch := false, inChatListSearch := false,
    inAside := false, inFooterComposer := true, containerWithSend := some true,
    ariaLabelledBy := "", labelledTexts := [] }

/-- A concrete visible but otherwise unremarkable input element. -/
def exPlainInput : ElemInfo :=
  { width := 200, height := 30, bottom := 480, visibility := "visible",
    display := "block", contentEditableFlag := false, tagName := "INPUT",
    placeholder := "", dataPlaceholder := "", ariaLabel := "",
    roleAttr := "", idAttr := "", nameAttr := "", typeAttr := "text",
    dataTab := "", inHeaderOrSearch := false, inChatListSearch := false,
    inAside := false, inFooterComposer := false, containerWithSend := none,
    ariaLabelledBy := "", labelledTexts := [] }

/-! ### Injection pipeline (`cmd_tippe`)

`_has_typed_text` is the post-type verification; the three typing strategies
(`loc.type`, `keyboard.insert_text`, direct DOM assignment with synthetic
events) are abstracted as functions from the element's current text to the
element's new text, returning `none` when the Playwright call raises.  The
focus/clear preamble is best-effort in the source (failures only print), so
the element's text at the start of typing is an input (`initText`).

The mutable module state touched by `cmd_tippe` and `auto_responder_loop`
(`_last_seen_messages`, `_last_sent_per_chat`, `_last_sent_text`,
`_last_sent_time`) is gathered into `AgentState`. -/

structure AgentState where
  /-- `_last_seen_messages : dict[str, str]`. -/
  lastSeen : List (String × String)
  /-- `_last_sent_per_chat : dict[str, tuple[str, float]]`. -/
  lastSentPerChat : List (String × (String × ℚ))
  /-- `_last_sent_text : str`. -/
  lastSentText : String
  /-- `_last_sent_time : float`. -/
  lastSentTime : ℚ
deriving DecidableEq

/-- `_has_typed_text(expected)` against a read-back `current` text:
empty normalized expectation verifies trivially; an empty normalized read-back
fails; otherwise substring or suffix after normalization. -/
def hasTypedText (expected current : String) : Bool :=
  let ne := pyNormalize expected
  if ne = "" then true
  else
    let cur := pyNormalize current
    if cur = "" then false
    else strHasSub cur ne || strEnds cur ne

/-- One typing strategy attempt followed by `_has_typed_text` verification:
on an exception (`none`) the element text is left as it was and `typed_ok`
is `False`. -/
def stepStrat (text : String) (s : String → Option String) (st : String) :
    String × Bool :=
  match s st with
  | some st' => (st', hasTypedText text st')
  | none => (st, false)

structure InjRes where
  /-- strategy 1 (`loc.type`) was attempted. -/
  ran1 : Bool
  /-- strategy 2 (`keyboard.insert_text`) was attempted. -/
  ran2 : Bool
  /-- strategy 3 (direct DOM assignment + events) was attempted. -/
  ran3 : Bool
  /-- the element's text when the strategy chain stops. -/
  finalText : String
  /-- the final `typed_ok`. -/
  ok : Bool
deriving DecidableEq

/-- The strategy chain of `cmd_tippe`: type, then `insert_text` only if
`typed_ok` is still false, then DOM assignment only if still false. -/
def runInjection (text st0 : String) (s1 s2 s3 : String → Option String) : InjRes :=
  let a := stepStrat text s1 st0
  if a.2 then ⟨true, false, false, a.1, true⟩
  else
    let b := stepStrat text s2 a.1
    if b.2 then ⟨true, true, false, b.1, true⟩
    else
      let c := stepStrat text s3 b.1
      ⟨true, true, true, c.1, c.2⟩

/-- `_maybe_auto_send`: returns immediately unless `AUTO_SEND`, and attempts a
send action only on the WhatsApp/Bumble host branches (`"web.whatsapp.com" in
host`, `"bumble.com" in host`). -/
def maybeAutoSend (autoSendCfg : Bool) (host : String) : Bool :=
  autoSendCfg && (strHasSub host "web.whatsapp.com" || strHasSub host "bumble.com")

structure TippeEnv where
  /-- the target locator was obtained (non-zero selector match, or the
  auto-finder returned one); both failure paths return before typing. -/
  targetFound : Bool
  /-- the page's lowercased hostname as read inside `cmd_tippe`. -/
  host : String
  /-- `get_active_chat_identity(page)` as it would resolve for this page. -/
  identity : Option String
  /-- the element's text when typing starts (after the best-effort clears). -/
  initText : String
  /-- effect of `loc.type(text, delay=15)` on the element text. -/
  strat1 : String → Option String
  /-- effect of `page.keyboard.insert_text(text)`. -/
  strat2 : String → Option String
  /-- effect of the direct DOM assignment with synthetic events. -/
  strat3 : String → Option String
  /-- `time.time()` at the recording point. -/
  now : ℚ
  /-- the `AUTO_SEND` configuration flag. -/
  autoSendFlag : Bool

structure TippeRes where
  /-- a target element was found. -/
  found : Bool
  /-- the injection chain outcome, when typing was reached. -/
  inj : Option InjRes
  /-- the final `typed_ok`; `false` is the reported failure. -/
  typedOk : Bool
  /-- `_maybe_auto_send` attempted a send action. -/
  autoSendAttempted : Bool
deriving DecidableEq

/-- `cmd_tippe(page, selector, text)` without console output: find the target,
run the strategy chain, report failure without auto-send or bookkeeping when
unverified; on verified success run `_maybe_auto_send`, then record
`_last_sent_text`/`_last_sent_time` and, when a conversation key resolves
(identity looked up only for `CHAT_DOMAINS` hosts), `_last_sent_per_chat`. -/
def cmdTippe (env : TippeEnv) (text : String) (st : AgentState) :
    TippeRes × AgentState :=
  if !env.targetFound then (⟨false, none, false, false⟩, st)
  else
    let inj := runInjection text env.initText env.strat1 env.strat2 env.strat3
    if !inj.ok then (⟨true, some inj, false, false⟩, st)
    else
      let sentText := pyStrip text
      let st1 := { st with lastSentText := sentText, lastSentTime := env.now }
      let ident := if env.host ∈ CHAT_DOMAINS then env.identity else none
      let st2 :=
        match chatStorageKey env.host ident with
        | some k =>
          { st1 with lastSentPerChat := (k, (sentText, env.now)) :: st1.lastSentPerChat }
        | none => st1
      (⟨true, some inj, true, maybeAutoSend env.autoSendFlag env.host⟩, st2)

/-- A `cmd_tippe` environment whose three strategies all raise, so
verification fails. -/
def exTippeFail : TippeEnv :=
  { targetFound := true, host := "bumble.com", identity := none,
    initText := "", strat1 := fun _ => none, strat2 := fun _ => none,
    strat3 := fun _ => none, now := 5, autoSendFlag := true }

/-- An in-flight agent state used by the concrete witnesses. -/
def exState : AgentState :=
  { lastSeen := [], lastSentPerChat := [], lastSentText := "", lastSentTime := 0 }

/-! ### One iteration of `auto_responder_loop`

The body of the `while True:` loop (inside the `try:`), with the page-surface
round trips abstracted into a `CycleEnv`: the current `AUTO_MODE` flag, the
page's hostname, the resolved chat identity, the extracted latest incoming
message (`None`, or a string — the code tests it for truthiness), the clock,
the generated reply and the environment of the nested `cmd_tippe` call.
The sleeps and the console output are dropped; everything that touches the
module state is kept. -/

structure CycleEnv where
  /-- the `AUTO_MODE` flag. -/
  autoMode : Bool
  /-- `urlparse(page.url).hostname or ""`, lowercased. -/
  host : String
  /-- `get_active_chat_identity(page)`. -/
  identity : Option String
  /-- `extract_latest_incoming_message(page)`. -/
  latest : Option String
  /-- `time.time()` at the echo check. -/
  now : ℚ
  /-- the reply produced by `generate_reply`. -/
  reply : String
  /-- environment of the nested `cmd_tippe(page, "", reply)` call. -/
  tippe : TippeEnv

structure CycleRes where
  /-- the cycle reached the reply dispatch (`cmd_tippe` was invoked). -/
  dispatched : Bool
  /-- the result reported by the nested `cmd_tippe`, when dispatched. -/
  tippeRes : Option TippeRes
deriving DecidableEq

/-- One polling-cycle body.  Mirrors, in order: the `AUTO_MODE` gate, the
`AUTO_DOMAINS.get(host, False)` gate, the conversation-key resolution
(`continue` when `None`), the `if latest:` truthiness test, the
`_last_seen_messages.get(chat_key) != latest` dedup test, the echo guard,
and finally reply dispatch via `cmd_tippe` followed by the unconditional
`_last_seen_messages[chat_key] = latest`. -/
def runAutoCycle (env : CycleEnv) (st : AgentState) : CycleRes × AgentState :=
  if !env.autoMode then (⟨false, none⟩, st)
  else if !autoDomainEnabled env.host then (⟨false, none⟩, st)
  else
    match chatStorageKey env.host env.identity with
    | none => (⟨false, none⟩, st)
    | some k =>
      match env.latest with
      | none => (⟨false, none⟩, st)
      | some l =>
        if l = "" then (⟨false, none⟩, st)
        else if List.lookup k st.lastSeen = some l then (⟨false, none⟩, st)
        else if isEcho st.lastSentPerChat k l env.now then (⟨false, none⟩, st)
        else
          let p := cmdTippe env.tippe env.reply st
          (⟨true, some p.1⟩, { p.2 with lastSeen := (k, l) :: p.2.lastSeen })

/-! ### The polling loop's exception handling

`auto_responder_loop` wraps every cycle in `try: ... except Exception: log;
sleep(AUTO_POLL_SECONDS)`.  A cycle outcome is: normal completion, an
ordinary exception (caught), or an `asyncio.CancelledError` (a
`BaseException`, not caught by `except Exception`, so it terminates the
loop).  `autoLoopRun` folds a stream of outcomes through the loop and
returns how many iterations ran, whether the loop exited (only by
cancellation), and the sleep taken after each completed iteration. -/

inductive CycleOutcome where
  /-- the cycle body completed (the `try` block fell through to the sleep). -/
  | ok
  /-- an ordinary exception was raised inside the cycle (caught and logged). -/
  | exc (msg : String)
  /-- cooperative cancellation (`asyncio.CancelledError`), not caught. -/
  | cancelled
deriving DecidableEq

/-- Run the loop over a stream of cycle outcomes: `(iterations survived,
terminated, sleeps taken)`. -/
def autoLoopRun : List CycleOutcome → Nat × Bool × List ℚ
  | [] => (0, false, [])
  | CycleOutcome.cancelled :: _ => (0, true, [])
  | CycleOutcome.ok :: rest =>
    let r := autoLoopRun rest
    (r.1 + 1, r.2.1, AUTO_POLL_SECONDS :: r.2.2)
  | CycleOutcome.exc _ :: rest =>
    let r := autoLoopRun rest
    (r.1 + 1, r.2.1, AUTO_POLL_SECONDS :: r.2.2)

/-- A cycle environment whose extraction repeats an already-seen message. -/
def exCycleEnv : CycleEnv :=
  { autoMode := true, host := "bumble.com", identity := none,
    latest := some "hi", now := 100, reply := "yo", tippe := exTippeFail }

/-- A state that already processed "hi" for key "bumble.com". -/
def exSeenState : AgentState :=
  { lastSeen := [("bumble.com", "hi")], lastSentPerChat := [],
    lastSentText := "", lastSentTime := 0 }

/-- A cycle environment that re-extracts the bot's own "ok" 2 seconds after
sending it. -/
def exEchoEnv : CycleEnv :=
  { autoMode := true, host := "bumble.com", identity := none,
    latest := some "ok", now := 2, reply := "yo", tippe := exTippeFail }

/-- The state right after the bot sent "ok" at time 0. -/
def exEchoState : AgentState :=
  { lastSeen := [], lastSentPerChat := [("bumble.com", ("ok", 0))],
    lastSentText := "ok", lastSentTime := 0 }

/-- A cycle environment with a genuinely new incoming message whose reply
injection will fail (all `cmd_tippe` strategies raise). -/
def exFreshEnv : CycleEnv :=
  { autoMode := true, host := "bumble.com", identity := none,
    latest := some "hey", now := 100, reply := "resp", tippe := exTippeFail }

/-! ### Marker attribute handling in `_find_dom_input`

The script clears old markers with
`clearMarks(document)` = `document.querySelectorAll('[data-__agent]') ...
removeAttribute`, then sets the marker on the chosen element
(`best.setAttribute('data-__agent', '1')`); `_mark_locator` does the same
`document.querySelectorAll`-based clearing.  Per the DOM standard,
`querySelectorAll` on a document reaches only the light tree of that
document: it does not descend into shadow roots, and it never crosses into
other frames' documents.  The candidate walk (`collectCandidates`), however,
does descend into shadow roots, so the chosen — and marked — element can sit
inside a shadow root.

A document tree is a node with a node id, its light-DOM children, and the
children of its shadow root (empty when no shadow root is attached); the
marker state is the list of node ids currently carrying `data-__agent`. -/

mutual
inductive ENode where
  /-- a DOM element: id, light children, shadow-root children. -/
  | mk (nid : Nat) (children : EForest) (shadow : EForest)
inductive EForest where
  | nil
  | cons (head : ENode) (tail : EForest)
end

mutual
/-- The node ids `document.querySelectorAll` can reach from this node:
the light tree, never entering shadow roots. -/
def lightIds : ENode → List Nat
  | .mk i cs _ => i :: lightIdsF cs
def lightIdsF : EForest → List Nat
  | .nil => []
  | .cons n t => lightIds n ++ lightIdsF t
end

mutual
/-- Every node id in the whole tree, shadow subtrees included. -/
def allIds : ENode → List Nat
  | .mk i cs sh => i :: (allIdsF cs ++ allIdsF sh)
def allIdsF : EForest → List Nat
  | .nil => []
  | .cons n t => allIds n ++ allIdsF t
end

/-- `clearMarks(document)`: remove the attribute from every currently marked
element that `document.querySelectorAll` reaches — the light tree only. -/
def clearMarksOp (doc : ENode) (marked : List Nat) : List Nat :=
  marked.filter (fun i => !((lightIds doc).contains i))

/-- The marking step of a discovery call: clear, then
`best.setAttribute('data-__agent','1')`. -/
def discoverMark (doc : ENode) (best : Nat) (marked : List Nat) : List Nat :=
  best :: clearMarksOp doc marked

/-- How many elements of the document tree (shadow subtrees included) carry
the marker. -/
def markedInDoc (doc : ENode) (marked : List Nat) : Nat :=
  (marked.filter (fun i => (allIds doc).contains i)).length

/-- A document whose root (id 0) has a light child 1 (the newly chosen
composer) and a light child 3 hosting a shadow root containing element 2 —
the element a previous discovery call chose and marked. -/
def exShadowDoc : ENode :=
  .mk 0
    (.cons (.mk 1 .nil .nil)
      (.cons (.mk 3 .nil (.cons (.mk 2 .nil .nil) .nil)) .nil))
    .nil

/-! ### The candidate-collection walk (`collectCandidates`)

The script's walk is

    collectCandidates(root, acc, seen):
      if (!root || seen.has(root)) return;
      seen.add(root);
      for el of root.querySelectorAll(selectors): if (!acc.includes(el)) acc.push(el);
      for each element of root's tree with a shadowRoot:
        collectCandidates(el.shadowRoot, acc, seen)

Roots (documents/shadow roots) are identified by node identity — here `Fin n`
— and the graph of shadow-root references is *arbitrary*: `shadowRoots r`
lists the roots reachable from `r`'s tree, and nothing stops it from
containing `r` itself or a cycle, which is exactly the situation the
visited-set guards against.  `cands r` is what `querySelectorAll(selectors)`
returns inside `r`.  The JS `Set` is a `Finset`; the walk also records the
order in which roots are first visited (`vis`).  The Lean function is total —
its termination argument is the strict growth of the visited set — which is
the termination half of the claim; the invariant bundled in the result gives
the at-most-once half. -/

structure ShadowGraph (n : Nat) where
  /-- for a root `r`, the shadow roots attached to elements of `r`'s tree. -/
  shadowRoots : Fin n → List (Fin n)
  /-- the candidate elements `querySelectorAll` matches inside `r`. -/
  cands : Fin n → List Nat

structure CollectRes (n : Nat) where
  /-- the accumulated candidate list (`acc`). -/
  acc : List Nat
  /-- the visited set (`seen`). -/
  seen : Finset (Fin n)
  /-- the roots newly visited, in first-visit order. -/
  vis : List (Fin n)

/-- Invariant carried through the walk: the visited set only grows, and the
newly visited roots are distinct, were unvisited before, and are visited
now. -/
def CollectInv {n : Nat} (seen0 : Finset (Fin n)) (r : CollectRes n) : Prop :=
  seen0 ⊆ r.seen ∧ r.vis.Nodup ∧ (∀ x ∈ r.vis, x ∉ seen0) ∧ ∀ x ∈ r.vis, x ∈ r.seen

/-- The walk over a worklist of roots: skip visited roots, otherwise mark
visited, append the root's unseen candidates (`if (!acc.includes(el))
acc.push(el)`), recurse into its shadow roots, then continue the worklist. -/
def collectMany {n : Nat} (g : ShadowGraph n) (ws : List (Fin n)) (acc : List Nat)
    (seen : Finset (Fin n)) : { r : CollectRes n // CollectInv seen r } :=
  match ws with
  | [] =>
    ⟨⟨acc, seen, []⟩, by
      refine ⟨Finset.Subset.refl _, List.nodup_nil, ?_, ?_⟩ <;>
        intro x hx <;> simp at hx⟩
  | r :: rs =>
    if hmem : r ∈ seen then
      collectMany g rs acc seen
    else
      let acc1 := (g.cands r).foldl (fun a e => if a.contains e then a else a ++ [e]) acc
      match collectMany g (g.shadowRoots r) acc1 (insert r seen) with
      | ⟨r1, inv1⟩ =>
        match collectMany g rs r1.acc r1.seen with
        | ⟨r2, inv2⟩ =>
          ⟨⟨r2.acc, r2.seen, r :: (r1.vis ++ r2.vis)⟩, by
            obtain ⟨hsub1, hnd1, hfresh1, hmem1⟩ := inv1
            obtain ⟨hsub2, hnd2, hfresh2, hmem2⟩ := inv2
            have hseen_r1 : seen ⊆ r1.seen :=
              fun x hx => hsub1 (Finset.mem_insert_of_mem hx)
            have hr_r1 : r ∈ r1.seen := hsub1 (Finset.mem_insert_self r seen)
            refine ⟨fun x hx => hsub2 (hseen_r1 hx), ?_, ?_, ?_⟩
            · refine List.nodup_cons.mpr ⟨?_, ?_⟩
              · intro hr
                rcases List.mem_append.mp hr with h1 | h2
                · exact hfresh1 r h1 (Finset.mem_insert_self r seen)
                · exact hfresh2 r h2 hr_r1
              · refine List.Nodup.append hnd1 hnd2 ?_
                intro x hx1 hx2
                exact hfresh2 x hx2 (hmem1 x hx1)
            · intro x hx
              rcases List.mem_cons.mp hx with rfl | hx'
              · exact hmem
              · rcases List.mem_append.mp hx' with h1 | h2
                · exact fun hxs => hfresh1 x h1 (Finset.mem_insert_of_mem hxs)
                · exact fun hxs => hfresh2 x h2 (hseen_r1 hxs)
            · intro x hx
              rcases List.mem_cons.mp hx with rfl | hx'
              · exact hsub2 hr_r1
              · rcases List.mem_append.mp hx' with h1 | h2
                · exact hsub2 (hmem1 x h1)
                · exact hmem2 x h2⟩
termination_by ((Finset.univ \ seen).card, ws.length)
decreasing_by
  · apply Prod.Lex.right
    simp
  · apply Prod.Lex.left
    have hr : r ∈ Finset.univ \ seen := by simp [hmem]
    have hsub : Finset.univ \ insert r seen ⊆ Finset.univ \ seen := by
      intro x hx
      simp only [Finset.mem_sdiff, Finset.mem_insert] at hx ⊢
      exact ⟨hx.1, fun hxs => hx.2 (Or.inr hxs)⟩
    have hnot : r ∉ Finset.univ \ insert r seen := by simp
    exact Finset.card_lt_card ((Finset.ssubset_iff_of_subset hsub).mpr ⟨r, hr, hnot⟩)
  · apply Prod.Lex.left
    have hr : r ∈ Finset.univ \ seen := by simp [hmem]
    have hsub : Finset.univ \ r1.seen ⊆ Finset.univ \ seen := by
      intro x hx
      simp only [Finset.mem_sdiff] at hx ⊢
      exact ⟨hx.1, fun hxs => hx.2 (inv1.1 (Finset.mem_insert_of_mem hxs))⟩
    have hnot : r ∉ Finset.univ \ r1.seen := by
      simp only [Finset.mem_sdiff, not_and, not_not]
      intro _
      exact inv1.1 (Finset.mem_insert_self r seen)
    exact Finset.card_lt_card ((Finset.ssubset_iff_of_subset hsub).mpr ⟨r, hr, hnot⟩)

/-- `collectCandidates(document, candidates, new Set())`, started on the
frame's document. -/
def collectCandidates {n : Nat} (g : ShadowGraph n) (root : Fin n) : CollectRes n :=
  (collectMany g [root] [] ∅).1

/-! ### Theorems -/

/-- C2: the echo guard reports "is-echo" iff a last-sent record exists for the
key with raw non-empty text, its stripped text equals the stripped candidate,
and the elapsed time since sending is strictly below the 10-second cooldown;
in particular with last-sent ("hello", t0), the check at
`t0 + (cooldown - eps)` is true and at `t0 + (cooldown + eps)` is false for
every positive `eps`. -/
theorem echo_guard_characterization :
    (∀ (m : List (String × (String × ℚ))) (k t : String) (now : ℚ),
      isEcho m k t now = true ↔
        ∃ txt ts, List.lookup k m = some (txt, ts) ∧ txt ≠ "" ∧
          pyStrip txt = pyStrip t ∧ now - ts < echoCooldownSec)
    ∧ (∀ (k : String) (t0 eps : ℚ), 0 < eps →
        isEcho [(k, ("hello", t0))] k "hello" (t0 + (echoCooldownSec - eps)) = true ∧
        isEcho [(k, ("hello", t0))] k "hello" (t0 + (echoCooldownSec + eps)) = false) := by
  constructor
  · intro m k t now
    unfold isEcho lookupLastSent
    cases h : List.lookup k m with
    | none =>
        simp only [h]
        constructor
        · intro hfalse
          simp at hfalse
        · rintro ⟨txt, ts, hsome, _⟩
          simp at hsome
    | some v =>
        obtain ⟨txt, ts⟩ := v
        simp only [h, Bool.and_eq_true, bne_iff_ne, beq_iff_eq, decide_eq_true_eq]
        constructor
        · rintro ⟨⟨h1, h2⟩, h3⟩
          exact ⟨txt, ts, rfl, h1, h2.symm, h3⟩
        · rintro ⟨txt', ts', hsome, h1, h2, h3⟩
          obtain ⟨rfl, rfl⟩ : txt = txt' ∧ ts = ts' := by
            simpa [Prod.ext_iff] using hsome
          exact ⟨⟨h1, h2.symm⟩, h3⟩
  · intro k t0 eps heps
    constructor
    · unfold isEcho lookupLastSent
      simp only [List.lookup_cons_self]
      simp [pyStrip]
      linarith
    · unfold isEcho lookupLastSent
      simp only [List.lookup_cons_self]
      simp
      linarith

/-- Witness for C2: concrete evaluation at key "bumble.com", last-sent
("hello", 0), eps = 1. -/
theorem echo_guard_characterization_witness :
    isEcho [("bumble.com", ("hello", (0 : ℚ)))] "bumble.com" "hello"
        (0 + (echoCooldownSec - 1)) = true ∧
      isEcho [("bumble.com", ("hello", (0 : ℚ)))] "bumble.com" "hello"
        (0 + (echoCooldownSec + 1)) = false :=
  echo_guard_characterization.2 "bumble.com" 0 1 (by norm_num)

/-- An element failing the visibility gate scores exactly `-1`. -/
lemma scoreEl_of_invisible (vh : ℚ) (el : ElemInfo) (h : isVisible el = false) :
    scoreEl vh el = -1 := by
  simp [scoreEl, h]

/-- The best-candidate loop only ever selects visible elements: the running
best score starts at `-1`, only grows, and an element is installed only with a
strictly larger score, while invisible elements score exactly `-1`. -/
lemma chooseStep_foldl_visible (vh : ℚ) :
    ∀ (cands : List ElemInfo) (acc : Option ElemInfo × ℚ),
      (∀ b, acc.1 = some b → isVisible b = true) → -1 ≤ acc.2 →
      ∀ b, (cands.foldl (chooseStep vh) acc).1 = some b → isVisible b = true := by
  intro cands
  induction cands with
  | nil => intro acc hvis _ b hb; exact hvis b hb
  | cons el rest ih =>
    intro acc hvis hge b hb
    simp only [List.foldl_cons] at hb
    by_cases hlt : acc.2 < scoreEl vh el
    · refine ih (some el, scoreEl vh el) ?_ ?_ b ?_
      · intro b' hb'
        obtain rfl : el = b' := by simpa using hb'
        by_contra hnot
        have hfalse : isVisible el = false := by
          cases hv : isVisible el with
          | true => exact absurd hv hnot
          | false => rfl
        rw [scoreEl_of_invisible vh el hfalse] at hlt
        linarith
      · have := le_of_lt (lt_of_le_of_lt hge hlt)
        simpa using this
      · simpa [chooseStep, hlt] using hb
    · refine ih acc hvis hge b ?_
      simpa [chooseStep, hlt] using hb

/-- Helper: whatever `chooseBest` returns as chosen element is visible. -/
lemma chooseBest_visible (vh : ℚ) (cands : List ElemInfo) (b : ElemInfo)
    (hb : (chooseBest vh cands).1 = some b) : isVisible b = true := by
  refine chooseStep_foldl_visible vh cands (none, -1) ?_ ?_ b hb
  · intro b' hb'; simp at hb'
  · simp

/-- C1: an element failing the visibility gate (width not greater than 20px,
or height not greater than 16px, or visibility hidden, or display none, i.e.
`isVisible = false`) is scored `-1` by `scoreEl` and is never the element
`chooseBest` selects, whatever the rest of the candidate list looks like. -/
theorem scorer_visibility_gate (vh : ℚ) (el : ElemInfo) (cands : List ElemInfo)
    (hinv : isVisible el = false) :
    scoreEl vh el = -1 ∧ (chooseBest vh cands).1 ≠ some el := by
  refine ⟨scoreEl_of_invisible vh el hinv, ?_⟩
  intro hsel
  have := chooseBest_visible vh cands el hsel
  rw [hinv] at this
  exact Bool.false_ne_true this

/-- Witness for C1: the hidden composer is scored `-1` and not chosen even
though it heads the candidate list. -/
theorem scorer_visibility_gate_witness :
    scoreEl 500 exHiddenComposer = -1 ∧
      (chooseBest 500 [exHiddenComposer, exPlainInput]).1 ≠ some exHiddenComposer :=
  scorer_visibility_gate 500 exHiddenComposer [exHiddenComposer, exPlainInput]
    (by decide)

/-- C5: the injection chain attempts typing first and each fallback runs
exactly when the verification after the previous strategy did not succeed
(an exception counts as unverified, since `typed_ok` is set to `False`);
in particular when character typing already verifies, neither the bulk
insert nor the DOM assignment executes and the element keeps exactly the
text strategy 1 produced. -/
theorem injection_fallback_order (text st0 : String)
    (s1 s2 s3 : String → Option String) :
    (runInjection text st0 s1 s2 s3).ran1 = true
    ∧ (runInjection text st0 s1 s2 s3).ran2 = !(stepStrat text s1 st0).2
    ∧ (runInjection text st0 s1 s2 s3).ran3 =
        (!(stepStrat text s1 st0).2 &&
          !(stepStrat text s2 (stepStrat text s1 st0).1).2)
    ∧ (∀ st1, s1 st0 = some st1 → hasTypedText text st1 = true →
        (runInjection text st0 s1 s2 s3).ran2 = false
        ∧ (runInjection text st0 s1 s2 s3).ran3 = false
        ∧ (runInjection text st0 s1 s2 s3).finalText = st1
        ∧ (runInjection text st0 s1 s2 s3).ok = true) := by
  refine ⟨?_, ?_, ?_, ?_⟩
  · unfold runInjection
    cases h1 : (stepStrat text s1 st0).2 with
    | true => simp [h1]
    | false =>
      simp only [h1, Bool.false_eq_true, if_false]
      cases h2 : (stepStrat text s2 (stepStrat text s1 st0).1).2 with
      | true => simp [h2]
      | false => simp [h2]
  · unfold runInjection
    cases h1 : (stepStrat text s1 st0).2 with
    | true => simp [h1]
    | false =>
      simp only [h1, Bool.false_eq_true, if_false, Bool.not_false]
      split <;> simp
  · unfold runInjection
    cases h1 : (stepStrat text s1 st0).2 with
    | true => simp [h1]
    | false =>
      simp only [h1, Bool.false_eq_true, if_false, Bool.not_false, Bool.true_and]
      cases h2 : (stepStrat text s2 (stepStrat text s1 st0).1).2 with
      | true => simp [h2]
      | false => simp [h2]
  · intro st1 hs1 hver
    have hstep : stepStrat text s1 st0 = (st1, true) := by
      simp [stepStrat, hs1, hver]
    unfold runInjection
    simp [hstep]

/-- Witness for C5: a typing strategy that appends the payload to the empty
element verifies immediately; the fallbacks stay unexecuted. -/
theorem injection_fallback_order_witness :
    (runInjection "hi" "" (fun st => some (st ++ "hi")) (fun _ => none)
        (fun _ => none)).ran2 = false
    ∧ (runInjection "hi" "" (fun st => some (st ++ "hi")) (fun _ => none)
        (fun _ => none)).ran3 = false
    ∧ (runInjection "hi" "" (fun st => some (st ++ "hi")) (fun _ => none)
        (fun _ => none)).finalText = "hi"
    ∧ (runInjection "hi" "" (fun st => some (st ++ "hi")) (fun _ => none)
        (fun _ => none)).ok = true :=
  (injection_fallback_order "hi" "" (fun st => some (st ++ "hi")) (fun _ => none)
    (fun _ => none)).2.2.2 "hi" rfl (by decide)

/-- C4: when the injection chain fails verification, `cmd_tippe` reports
failure (`typedOk = false`), attempts no auto-send action, and leaves the
whole module state — in particular `_last_sent_text`, `_last_sent_time` and
`_last_sent_per_chat` — untouched; on verified success the last-sent record
is written with the stripped payload and the current time. -/
theorem tippe_failure_no_send_no_record (env : TippeEnv) (text : String)
    (st : AgentState) :
    ((cmdTippe env text st).1.typedOk = false →
      (cmdTippe env text st).1.autoSendAttempted = false
      ∧ (cmdTippe env text st).2 = st)
    ∧ ((cmdTippe env text st).1.typedOk = true →
      (cmdTippe env text st).2.lastSentText = pyStrip text
      ∧ (cmdTippe env text st).2.lastSentTime = env.now) := by
  unfold cmdTippe
  cases hf : env.targetFound with
  | false => simp
  | true =>
    simp only [Bool.not_true, Bool.false_eq_true, if_false]
    cases hok : (runInjection text env.initText env.strat1 env.strat2 env.strat3).ok with
    | false => simp
    | true =>
      simp only [Bool.not_true, Bool.false_eq_true, if_false]
      constructor
      · intro h
        simp at h
      · intro _
        split <;> simp

/-- Witness for C4: with all strategies raising, the failure branch triggers
no auto-send and leaves the state untouched. -/
theorem tippe_failure_no_send_no_record_witness :
    (cmdTippe exTippeFail "hallo" exState).1.autoSendAttempted = false
    ∧ (cmdTippe exTippeFail "hallo" exState).2 = exState :=
  (tippe_failure_no_send_no_record exTippeFail "hallo" exState).1 (by decide)

/-- Helper: `cmd_tippe` never touches `_last_seen_messages`. -/
lemma cmdTippe_lastSeen (env : TippeEnv) (text : String) (st : AgentState) :
    (cmdTippe env text st).2.lastSeen = st.lastSeen := by
  unfold cmdTippe
  cases hf : env.targetFound with
  | false => simp
  | true =>
    simp only [Bool.not_true, Bool.false_eq_true, if_false]
    cases hok : (runInjection text env.initText env.strat1 env.strat2 env.strat3).ok with
    | false => simp
    | true =>
      simp only [Bool.not_true, Bool.false_eq_true, if_false]
      split <;> simp

/-- Helper: an unverified `cmd_tippe` leaves the whole state unchanged. -/
lemma cmdTippe_state_of_fail (env : TippeEnv) (text : String) (st : AgentState)
    (h : (cmdTippe env text st).1.typedOk = false) :
    (cmdTippe env text st).2 = st := by
  unfold cmdTippe at h ⊢
  cases hf : env.targetFound with
  | false => simp
  | true =>
    simp only [hf, Bool.not_true, Bool.false_eq_true, if_false] at h ⊢
    cases hok : (runInjection text env.initText env.strat1 env.strat2 env.strat3).ok with
    | false => simp
    | true =>
      simp only [hok, Bool.not_true, Bool.false_eq_true, if_false] at h ⊢
      simp at h

/-- Helper: every skip path of the cycle returns `(no dispatch, st)`; in
particular this happens whenever the extracted text equals the last-seen
record of the resolved key. -/
lemma runAutoCycle_skip_of_seen (env : CycleEnv) (st : AgentState) (k l : String)
    (hk : chatStorageKey env.host env.identity = some k)
    (hl : env.latest = some l)
    (hseen : List.lookup k st.lastSeen = some l) :
    runAutoCycle env st = (⟨false, none⟩, st) := by
  unfold runAutoCycle
  rw [hk, hl]
  cases hmode : env.autoMode with
  | false => simp
  | true =>
    cases hdom : autoDomainEnabled env.host with
    | false => simp
    | true => simp [hseen]

/-- Helper: every cycle either takes one of the skip paths (returning the
state unchanged) or passes all guards and dispatches. -/
lemma runAutoCycle_cases (env : CycleEnv) (st : AgentState) :
    (runAutoCycle env st = (⟨false, none⟩, st))
    ∨ ∃ k l, chatStorageKey env.host env.identity = some k ∧
        env.latest = some l ∧ l ≠ "" ∧
        List.lookup k st.lastSeen ≠ some l ∧
        isEcho st.lastSentPerChat k l env.now = false ∧
        runAutoCycle env st =
          (⟨true, some (cmdTippe env.tippe env.reply st).1⟩,
            { (cmdTippe env.tippe env.reply st).2 with
                lastSeen := (k, l) :: (cmdTippe env.tippe env.reply st).2.lastSeen }) := by
  unfold runAutoCycle
  cases hmode : env.autoMode with
  | false => left; simp
  | true =>
    cases hdom : autoDomainEnabled env.host with
    | false => left; simp
    | true =>
      cases hk : chatStorageKey env.host env.identity with
      | none => left; simp
      | some k =>
        cases hl : env.latest with
        | none => left; simp
        | some l =>
          by_cases hempty : l = ""
          · left; simp [hempty]
          · by_cases hseen : List.lookup k st.lastSeen = some l
            · left; simp [hempty, hseen]
            · by_cases hecho : isEcho st.lastSentPerChat k l env.now = true
              · left; simp [hempty, hseen, hecho]
              · right
                refine ⟨k, l, rfl, rfl, hempty, hseen, by simpa using hecho, ?_⟩
                simp [hempty, hseen, hecho]

/-- Helper: a dispatching cycle pins down the key, the latest text, and the
fact that the new state's last-seen record maps that key to that text. -/
lemma runAutoCycle_dispatched (env : CycleEnv) (st : AgentState)
    (h : (runAutoCycle env st).1.dispatched = true) :
    ∃ k l, chatStorageKey env.host env.identity = some k ∧ env.latest = some l ∧
      List.lookup k (runAutoCycle env st).2.lastSeen = some l := by
  rcases runAutoCycle_cases env st with hskip | ⟨k, l, hk, hl, _, _, _, heq⟩
  · rw [hskip] at h
    simp at h
  · refine ⟨k, l, hk, hl, ?_⟩
    rw [heq]
    simp [List.lookup_cons_self]

/-- Helper: with every guard passed, a fresh non-echo message dispatches a
reply and appends the `(key, text)` last-seen record. -/
lemma runAutoCycle_dispatches (env : CycleEnv) (st : AgentState) (k l : String)
    (hmode : env.autoMode = true)
    (hdom : autoDomainEnabled env.host = true)
    (hk : chatStorageKey env.host env.identity = some k)
    (hl : env.latest = some l)
    (hne : l ≠ "")
    (hseen : List.lookup k st.lastSeen ≠ some l)
    (hecho : isEcho st.lastSentPerChat k l env.now = false) :
    runAutoCycle env st =
      (⟨true, some (cmdTippe env.tippe env.reply st).1⟩,
        { (cmdTippe env.tippe env.reply st).2 with
            lastSeen := (k, l) :: (cmdTippe env.tippe env.reply st).2.lastSeen }) := by
  unfold runAutoCycle
  rw [hk, hl]
  simp [hmode, hdom, hne, hseen, hecho]

/-- Helper: once the per-key last-sent record is at least a cooldown old (or
absent), the echo guard reports false. -/
lemma isEcho_false_of_cooldown (m : List (String × (String × ℚ))) (k l : String)
    (now2 : ℚ)
    (h : ∀ txt ts, List.lookup k m = some (txt, ts) → echoCooldownSec ≤ now2 - ts) :
    isEcho m k l now2 = false := by
  unfold isEcho lookupLastSent
  cases hm : List.lookup k m with
  | none => simp
  | some v =>
    obtain ⟨txt, ts⟩ := v
    have hnot : ¬ (now2 - ts < echoCooldownSec) := not_lt.mpr (h txt ts hm)
    simp [hnot]

/-- C3: when the extracted latest message equals the last-seen record of the
resolved conversation key, the cycle dispatches nothing and returns the state
unchanged; consequently two successive cycles over an unchanged environment
(same extraction, no outside state change) dispatch at most one reply. -/
theorem auto_cycle_dedup (env : CycleEnv) (st : AgentState) :
    (∀ k l, chatStorageKey env.host env.identity = some k → env.latest = some l →
      List.lookup k st.lastSeen = some l →
      runAutoCycle env st = (⟨false, none⟩, st))
    ∧ ¬ ((runAutoCycle env st).1.dispatched = true ∧
        (runAutoCycle env (runAutoCycle env st).2).1.dispatched = true) := by
  constructor
  · intro k l hk hl hseen
    exact runAutoCycle_skip_of_seen env st k l hk hl hseen
  · rintro ⟨h1, h2⟩
    obtain ⟨k, l, hk, hl, hlook⟩ := runAutoCycle_dispatched env st h1
    have hskip := runAutoCycle_skip_of_seen env (runAutoCycle env st).2 k l hk hl hlook
    rw [hskip] at h2
    simp at h2

/-- Witness for C3: with "hi" already recorded for "bumble.com", the cycle is
a no-op. -/
theorem auto_cycle_dedup_witness :
    runAutoCycle exCycleEnv exSeenState = (⟨false, none⟩, exSeenState) :=
  (auto_cycle_dedup exCycleEnv exSeenState).1 "bumble.com" "hi" (by decide) rfl
    (by decide)

/-- C6: an echo-guard skip changes nothing — in particular the last-seen
record keeps its old value — and once the cooldown has lapsed (the per-key
last-sent record, if any, is at least `echoCooldownSec` old) the same
environment dispatches a reply, so the same text is then processed as a new
incoming message. -/
theorem echo_skip_preserves_lastseen (env : CycleEnv) (st : AgentState)
    (k l : String)
    (hmode : env.autoMode = true)
    (hdom : autoDomainEnabled env.host = true)
    (hk : chatStorageKey env.host env.identity = some k)
    (hl : env.latest = some l)
    (hne : l ≠ "")
    (hseen : List.lookup k st.lastSeen ≠ some l)
    (hecho : isEcho st.lastSentPerChat k l env.now = true) :
    runAutoCycle env st = (⟨false, none⟩, st)
    ∧ ∀ now2 : ℚ,
        (∀ txt ts, List.lookup k st.lastSentPerChat = some (txt, ts) →
          echoCooldownSec ≤ now2 - ts) →
        (runAutoCycle { env with now := now2 } st).1.dispatched = true := by
  constructor
  · unfold runAutoCycle
    rw [hk, hl]
    cases hmode2 : env.autoMode with
    | false => simp
    | true =>
      cases hdom2 : autoDomainEnabled env.host with
      | false => simp
      | true => simp [hseen, hecho]
  · intro now2 hcool
    have hecho2 : isEcho st.lastSentPerChat k l now2 = false :=
      isEcho_false_of_cooldown st.lastSentPerChat k l now2 hcool
    have hdisp :=
      runAutoCycle_dispatches { env with now := now2 } st k l hmode hdom hk hl hne
        hseen hecho2
    rw [hdisp]

/-- Witness for C6: an "ok" extracted 2 seconds after sending "ok" is skipped
without touching state, and at 12 seconds the same extraction dispatches. -/
theorem echo_skip_preserves_lastseen_witness :
    runAutoCycle exEchoEnv exEchoState = (⟨false, none⟩, exEchoState) :=
  (echo_skip_preserves_lastseen exEchoEnv exEchoState "bumble.com" "ok"
    rfl (by decide) (by decide) rfl (by decide) (by decide)
    (by
      unfold isEcho lookupLastSent
      simp [exEchoState, exEchoEnv, echoCooldownSec, List.lookup_cons_self]
      norm_num)).1

/-- C9: the polling loop survives every ordinary per-cycle exception — for a
stream of cycle outcomes with no cancellation, every cycle runs, the loop
does not terminate, and each iteration (exceptional or not) is followed by
the standard `AUTO_POLL_SECONDS` sleep. -/
theorem auto_loop_survives_exceptions (outs : List CycleOutcome)
    (h : ∀ o ∈ outs, o ≠ CycleOutcome.cancelled) :
    autoLoopRun outs =
      (outs.length, false, List.replicate outs.length AUTO_POLL_SECONDS) := by
  induction outs with
  | nil => simp [autoLoopRun]
  | cons o rest ih =>
    have hrest : ∀ o' ∈ rest, o' ≠ CycleOutcome.cancelled :=
      fun o' ho' => h o' (List.mem_cons_of_mem _ ho')
    have hne := h o (List.mem_cons_self _ _)
    cases o with
    | ok => simp [autoLoopRun, ih hrest, List.replicate_succ]
    | exc m => simp [autoLoopRun, ih hrest, List.replicate_succ]
    | cancelled => exact absurd rfl hne

/-- Witness for C9: two exceptions around a normal cycle — three iterations,
no termination, three standard sleeps. -/
theorem auto_loop_survives_exceptions_witness :
    autoLoopRun [CycleOutcome.exc "boom", CycleOutcome.ok, CycleOutcome.exc "x"] =
      (3, false, [AUTO_POLL_SECONDS, AUTO_POLL_SECONDS, AUTO_POLL_SECONDS]) := by
  have h := auto_loop_survives_exceptions
    [CycleOutcome.exc "boom", CycleOutcome.ok, CycleOutcome.exc "x"] (by decide)
  simpa using h

/-- C10: in a cycle that decides to reply, the last-seen record for the key is
written even when the injection fails verification (no send, no last-sent
update), and the same incoming text is therefore never dispatched again by a
later cycle. -/
theorem lastseen_updated_on_failed_injection (env : CycleEnv) (st : AgentState)
    (k l : String)
    (hmode : env.autoMode = true)
    (hdom : autoDomainEnabled env.host = true)
    (hk : chatStorageKey env.host env.identity = some k)
    (hl : env.latest = some l)
    (hne : l ≠ "")
    (hseen : List.lookup k st.lastSeen ≠ some l)
    (hecho : isEcho st.lastSentPerChat k l env.now = false)
    (hfail : (cmdTippe env.tippe env.reply st).1.typedOk = false) :
    (runAutoCycle env st).1.dispatched = true
    ∧ List.lookup k (runAutoCycle env st).2.lastSeen = some l
    ∧ (runAutoCycle env st).2.lastSentPerChat = st.lastSentPerChat
    ∧ (runAutoCycle env st).2.lastSentText = st.lastSentText
    ∧ (runAutoCycle env st).2.lastSentTime = st.lastSentTime
    ∧ (runAutoCycle env (runAutoCycle env st).2).1.dispatched = false := by
  have hdisp := runAutoCycle_dispatches env st k l hmode hdom hk hl hne hseen hecho
  have hstf := cmdTippe_state_of_fail env.tippe env.reply st hfail
  have hlook : List.lookup k (runAutoCycle env st).2.lastSeen = some l := by
    rw [hdisp]
    simp [List.lookup_cons_self]
  refine ⟨by rw [hdisp], hlook, ?_, ?_, ?_, ?_⟩
  · rw [hdisp]; simp [hstf]
  · rw [hdisp]; simp [hstf]
  · rw [hdisp]; simp [hstf]
  · have hskip :=
      runAutoCycle_skip_of_seen env (runAutoCycle env st).2 k l hk hl hlook
    rw [hskip]

/-- Witness for C10: a fresh "hey" whose reply injection fails still marks
"hey" as seen for "bumble.com". -/
theorem lastseen_updated_on_failed_injection_witness :
    List.lookup "bumble.com" (runAutoCycle exFreshEnv exState).2.lastSeen =
      some "hey" :=
  (lastseen_updated_on_failed_injection exFreshEnv exState "bumble.com" "hey"
    rfl (by decide) (by decide) rfl (by decide) (by decide) (by decide)
    (by decide)).2.1

/-- Helper: filtering by a predicate after keeping only its complement
yields nothing. -/
lemma filter_not_filter (p : Nat → Bool) (m : List Nat) :
    (m.filter (fun i => !p i)).filter p = [] := by
  induction m with
  | nil => rfl
  | cons a t ih =>
    by_cases h : p a = true
    · simp [List.filter_cons, h, ih]
    · simp [List.filter_cons, h, ih]

/-- C7 counterexample: with a marker left inside a shadow root by an earlier
discovery call (element 2 of `exShadowDoc`), marking the newly chosen light
element 1 leaves two marked elements in the document tree — the
`querySelectorAll`-based clearing never reaches the shadow subtree.  This
refutes the claim that every discovery call re-establishes "at most one
marked element in the whole tree". -/
theorem marker_invariant_counterexample :
    ¬ (markedInDoc exShadowDoc (discoverMark exShadowDoc 1 [2]) ≤ 1) := by
  decide

/-- C7 amended: the clearing acts exactly on the elements
`document.querySelectorAll` reaches — the light DOM of the frame being
scored — so after a discovery call at most one *light-DOM* element carries
the marker; markers inside shadow-attached subtrees (or in other frames'
documents) are not cleared and the whole-tree invariant can fail. -/
theorem marker_invariant_light_dom (doc : ENode) (best : Nat) (marked : List Nat) :
    ((discoverMark doc best marked).filter
        (fun i => (lightIds doc).contains i)).length ≤ 1 := by
  unfold discoverMark clearMarksOp
  simp [List.filter_cons, filter_not_filter]
  split <;> simp

/-- C8: for every shadow-root reference graph — cycles and self-references
included, since `shadowRoots` is unconstrained — the candidate-collection
walk is a total function (its well-founded termination measure is the strict
growth of the visited set, mirroring `seen.add(root)` after the
`seen.has(root)` skip), and it visits each root at most once: the visit
order is duplicate-free, so at most `n` visits happen. -/
theorem collect_walk_terminates_nodup (n : Nat) (g : ShadowGraph n) (root : Fin n) :
    (collectCandidates g root).vis.Nodup ∧
      (collectCandidates g root).vis.length ≤ n := by
  have h := (collectMany g [root] [] (∅ : Finset (Fin n))).2
  refine ⟨h.2.1, ?_⟩
  have hle := List.Nodup.length_le_card h.2.1
  simpa [Fintype.card_fin] using hle

end ChatHelper
